import Mathlib

/-!
# Verification of the Nosana Terraform provider's job-submission engine

Shallow embedding of the core logic of the `terraform-provider-nosana`
repository: the on-chain instruction encoder (`buildNosanaListInstruction`),
the transaction-confirmation engine (`waitForConfirmation`), the vault
funding planner (`FundVault`), the deployment start retry/restart controller
(`StartDeploymentWithRetry`), the deployment-state polling loop of
`resourceNosanaJobCreate`, the HTTP authentication header construction
(`getAuthHeaders`), and the `resourceNosanaJobDelete` lifecycle step.

Bytes are `Nat` values below 256; machine words are `Nat` with explicit
reduction modulo `2^32` / `2^64`; SOL/NOS amounts (Go `float64`) are modelled
as exact rationals `ℚ` (the decisions in the source compare sums, differences
and quotients of decimal constants and integer balances, which are exact in
this range); blocking waits are modelled by fuel counters derived from the
source's timeout and tick constants; the network is an explicit environment
(functions from poll/attempt indices to responses).
-/

namespace NosanaSpec

/-! ## String utilities (Go `strings.Contains`) -/

/-- True when `needle` occurs at the head of `l`. -/
def listStarts : List Char → List Char → Bool
  | [], _ => true
  | _ :: _, [] => false
  | a :: as, b :: bs => a == b && listStarts as bs

/-- True when `needle` occurs contiguously in `hay`. -/
def listHasSub (needle : List Char) : List Char → Bool
  | [] => listStarts needle []
  | c :: rest => listStarts needle (c :: rest) || listHasSub needle rest

/-- Go `strings.Contains s sub`. -/
def strContains (s sub : String) : Bool := listHasSub sub.data s.data

/-! ## Base58 decoding (`mr-tron/base58`, Bitcoin alphabet)

`base58.Decode` interprets the string as a big-endian base-58 number over the
Bitcoin alphabet, emits that number's big-endian bytes, and prepends one zero
byte per leading `'1'`. We accumulate the number directly as a little-endian
byte list (multiply-by-58-and-add per digit) so every definition is
structurally recursive and kernel-evaluable. -/

def base58Alphabet : List Char :=
  "123456789ABCDEFGHJKLMNPQRSTUVWXYZabcdefghijkmnopqrstuvwxyz".data

/-- Index of a character in a character list, if present. -/
def charIndexIn : List Char → Char → Option Nat
  | [], _ => none
  | a :: rest, c => if a == c then some 0 else (charIndexIn rest c).map (· + 1)

/-- Multiply a little-endian base-256 digit list by 58 and add a carry
(`carry < 256` is preserved: each step's carry is at most `(255*58+57)/256 = 57`). -/
def leMul58Add : List Nat → Nat → List Nat
  | [], c => if c = 0 then [] else [c]
  | b :: rest, c =>
    let v := b * 58 + c
    v % 256 :: leMul58Add rest (v / 256)

/-- Fold the base-58 digits of the string into a little-endian byte list. -/
def base58DecodeCore : List Char → List Nat → Option (List Nat)
  | [], acc => some acc
  | ch :: rest, acc =>
    match charIndexIn base58Alphabet ch with
    | none => none
    | some d => base58DecodeCore rest (leMul58Add acc d)

/-- Number of leading `'1'` characters (each encodes one leading zero byte). -/
def countLeadOnes : List Char → Nat
  | c :: rest => if c == '1' then countLeadOnes rest + 1 else 0
  | [] => 0

/-- Go `base58.Decode`: `none` on a character outside the alphabet, otherwise the
raw bytes (leading zeros, then the big-endian bytes of the number). -/
def base58Decode (s : String) : Option (List Nat) :=
  match base58DecodeCore s.data [] with
  | none => none
  | some le => some (List.replicate (countLeadOnes s.data) 0 ++ le.reverse)

/-! ## SHA-256 (`crypto/sha256`), over byte lists -/

/-- Reduce to a 32-bit word. -/
def w32 (x : Nat) : Nat := x % 4294967296

/-- Right-rotation of a 32-bit word by `n` places (for `x < 2^32`, `n ≤ 32`). -/
def rotr32 (n x : Nat) : Nat := w32 (x / 2 ^ n + x % 2 ^ n * 2 ^ (32 - n))

/-- Bitwise complement within 32 bits. -/
def not32 (x : Nat) : Nat := Nat.xor x 4294967295

def sha256ch (e f g : Nat) : Nat := Nat.xor (e &&& f) (not32 e &&& g)

def sha256maj (a b c : Nat) : Nat := Nat.xor (Nat.xor (a &&& b) (a &&& c)) (b &&& c)

def bigSigma0 (x : Nat) : Nat := Nat.xor (Nat.xor (rotr32 2 x) (rotr32 13 x)) (rotr32 22 x)

def bigSigma1 (x : Nat) : Nat := Nat.xor (Nat.xor (rotr32 6 x) (rotr32 11 x)) (rotr32 25 x)

def smallSigma0 (x : Nat) : Nat := Nat.xor (Nat.xor (rotr32 7 x) (rotr32 18 x)) (x / 2 ^ 3)

def smallSigma1 (x : Nat) : Nat := Nat.xor (Nat.xor (rotr32 17 x) (rotr32 19 x)) (x / 2 ^ 10)

/-- The 64 SHA-256 round constants. -/
def sha256K : List Nat :=
  [1116352408, 1899447441, 3049323471, 3921009573, 961987163, 1508970993,
   2453635748, 2870763221, 3624381080, 310598401, 607225278, 1426881987,
   1925078388, 2162078206, 2614888103, 3248222580, 3835390401, 4022224774,
   264347078, 604807628, 770255983, 1249150122, 1555081692, 1996064986,
   2554220882, 2821834349, 2952996808, 3210313671, 3336571891, 3584528711,
   113926993, 338241895, 666307205, 773529912, 1294757372, 1396182291,
   1695183700, 1986661051, 2177026350, 2456956037, 2730485921, 2820302411,
   3259730800, 3345764771, 3516065817, 3600352804, 4094571909, 275423344,
   430227734, 506948616, 659060556, 883997877, 958139571, 1322822218,
   1537002063, 1747873779, 1955562222, 2024104815, 2227730452, 2361852424,
   2428436474, 2756734187, 3204031479, 3329325298]

/-- Initial SHA-256 hash state. -/
def sha256H0 : List Nat :=
  [1779033703, 3144134277, 1013904242, 2773480762,
   1359893119, 2600822924, 528734635, 1541459225]

/-- Big-endian bytes of a natural number, `k` bytes wide. -/
def natToBytesBEFixed (k n : Nat) : List Nat :=
  match k with
  | 0 => []
  | k + 1 => natToBytesBEFixed k (n / 256) ++ [n % 256]

/-- SHA-256 padding: `0x80`, zeros to 56 mod 64, then the bit length (64-bit BE). -/
def sha256pad (msg : List Nat) : List Nat :=
  let L := msg.length
  let z := (119 - L % 64) % 64
  msg ++ [0x80] ++ List.replicate z 0 ++ natToBytesBEFixed 8 (L * 8)

/-- Group bytes four at a time into big-endian 32-bit words. -/
def bytesToWordsBE : List Nat → List Nat
  | b1 :: b2 :: b3 :: b4 :: rest =>
    (b1 * 16777216 + b2 * 65536 + b3 * 256 + b4) :: bytesToWordsBE rest
  | _ => []

/-- Extend the 16-word message schedule by `n` further words. -/
def extendW : List Nat → Nat → List Nat
  | ws, 0 => ws
  | ws, n + 1 =>
    let l := ws.length
    let next := w32 (smallSigma1 (ws.getD (l - 2) 0) + ws.getD (l - 7) 0 +
      smallSigma0 (ws.getD (l - 15) 0) + ws.getD (l - 16) 0)
    extendW (ws ++ [next]) n

/-- One SHA-256 round per `(k, w)` pair. -/
def sha256Rounds : List (Nat × Nat) →
    Nat × Nat × Nat × Nat × Nat × Nat × Nat × Nat →
    Nat × Nat × Nat × Nat × Nat × Nat × Nat × Nat
  | [], st => st
  | (k, w) :: rest, (a, b, c, d, e, f, g, h) =>
    let t1 := w32 (h + bigSigma1 e + sha256ch e f g + k + w)
    let t2 := w32 (bigSigma0 a + sha256maj a b c)
    sha256Rounds rest (w32 (t1 + t2), a, b, c, w32 (d + t1), e, f, g)

/-- Compress one 64-byte block into the running hash (eight words). -/
def sha256Compress (h : List Nat) (block : List Nat) : List Nat :=
  let ws := extendW (bytesToWordsBE block) 48
  let st := sha256Rounds (sha256K.zip ws)
    (h.getD 0 0, h.getD 1 0, h.getD 2 0, h.getD 3 0,
     h.getD 4 0, h.getD 5 0, h.getD 6 0, h.getD 7 0)
  [w32 (h.getD 0 0 + st.1), w32 (h.getD 1 0 + st.2.1), w32 (h.getD 2 0 + st.2.2.1),
   w32 (h.getD 3 0 + st.2.2.2.1), w32 (h.getD 4 0 + st.2.2.2.2.1),
   w32 (h.getD 5 0 + st.2.2.2.2.2.1), w32 (h.getD 6 0 + st.2.2.2.2.2.2.1),
   w32 (h.getD 7 0 + st.2.2.2.2.2.2.2)]

/-- Split into 64-byte chunks (fuel-driven so the kernel can evaluate it). -/
def chunk64Aux : Nat → List Nat → List (List Nat)
  | 0, _ => []
  | _, [] => []
  | fuel + 1, l => l.take 64 :: chunk64Aux fuel (l.drop 64)

def chunk64 (l : List Nat) : List (List Nat) := chunk64Aux l.length l

/-- Big-endian bytes of one 32-bit word. -/
def word32ToBEBytes (x : Nat) : List Nat :=
  [x / 16777216 % 256, x / 65536 % 256, x / 256 % 256, x % 256]

/-- SHA-256 digest (32 bytes) of a byte list. -/
def sha256 (msg : List Nat) : List Nat :=
  ((chunk64 (sha256pad msg)).foldl sha256Compress sha256H0).flatMap word32ToBEBytes

/-- The bytes of an ASCII/UTF-8 string (all strings used here are ASCII). -/
def strToBytes (s : String) : List Nat := s.data.map Char.toNat

/-! ## Instruction encoder (`buildNosanaListInstruction`, direct submission file)

Solana public keys are opaque identities here; only equality matters to the
encoder, so they are modelled as strings (their base58 text form). -/

abbrev Pubkey := String

/-- Model of `solana.AccountMeta`. -/
structure AccountMeta where
  publicKey : Pubkey
  isWritable : Bool
  isSigner : Bool
deriving DecidableEq, Repr

/-- Model of `solana.GenericInstruction`: program id, ordered accounts, data bytes. -/
structure Instruction where
  programID : Pubkey
  accounts : List AccountMeta
  data : List Nat
deriving DecidableEq, Repr

/-- Constant `token.ProgramID` (SPL token program). -/
def tokenProgramID : Pubkey := "TokenkegQfeZyiNwAJbNbGKPFXCWuBvf9Ss623VQ5DA"

/-- Constant `system.ProgramID`. -/
def systemProgramID : Pubkey := "11111111111111111111111111111111"

/-- Go `uint64(timeout)` for `timeout : int`: two's-complement wrap into `[0, 2^64)`. -/
def intToUint64 (t : Int) : Nat := (t % (2 ^ 64 : Int)).toNat

/-- Go `binary.LittleEndian.PutUint64`: eight little-endian bytes. -/
def uint64ToLEBytes (x : Nat) : List Nat :=
  [x % 256, x / 256 % 256, x / 65536 % 256, x / 16777216 % 256,
   x / 4294967296 % 256, x / 1099511627776 % 256,
   x / 281474976710656 % 256, x / 72057594037927936 % 256]

/-- Model of `buildNosanaListInstruction`: decode the IPFS hash, reject fewer than 34
bytes, keep bytes 2..34, build the Anchor payload
(first 8 bytes of `sha256("global:list")`, the 32 hash bytes, the timeout as
little-endian `u64`) and the fixed 9-account list. `payer` is the submitters's
wallet key (`d.PublicKey`), used for both the payer and authority entries. -/
def buildNosanaListInstruction (ipfsHash : String) (timeout : Int)
    (jobAccount runAccount marketAccount userTokenAccount vaultAccount
      programID mintAccount payer : Pubkey) : Except String Instruction :=
  match base58Decode ipfsHash with
  | none => .error "failed to decode IPFS hash"
  | some ipfsBytes =>
    if ipfsBytes.length < 34 then .error "invalid IPFS hash length"
    else
      let ipfsHashBytes := (ipfsBytes.drop 2).take 32
      let timeoutBytes := uint64ToLEBytes (intToUint64 timeout)
      let methodHash := sha256 (strToBytes "global:list")
      let instructionData := methodHash.take 8 ++ ipfsHashBytes ++ timeoutBytes
      let _ := mintAccount
      .ok
        { programID := programID
          accounts :=
            [⟨jobAccount, true, true⟩,
             ⟨marketAccount, true, false⟩,
             ⟨runAccount, true, true⟩,
             ⟨userTokenAccount, true, false⟩,
             ⟨vaultAccount, true, false⟩,
             ⟨payer, true, true⟩,
             ⟨payer, false, true⟩,
             ⟨tokenProgramID, false, false⟩,
             ⟨systemProgramID, false, false⟩]
          data := instructionData }

/-! ## Submission & confirmation engine (`waitForConfirmation`)

The Go loop creates a 60-second timer and a 2-second ticker and `select`s;
the ticks that fire strictly before the timer are those at 2,4,…,58 seconds,
so the loop inspects at most `(60-1)/2 = 29` poll results before the timeout
branch wins. Each tick's `GetSignatureStatuses` response is supplied by the
environment as a function of the tick index. -/

inductive ConfirmationStatus
  | processed
  | confirmed
  | finalized
deriving DecidableEq, Repr

/-- One non-nil entry of a `GetSignatureStatuses` response. -/
structure SignatureStatus where
  hasErr : Bool
  confirmationStatus : ConfirmationStatus
deriving DecidableEq, Repr

/-- One tick's poll result: RPC failure, a nil/absent status, or a status. -/
inductive SigPollResult
  | rpcError
  | missing
  | status (s : SignatureStatus)
deriving DecidableEq, Repr

/-- The three terminal outcomes of the confirmation engine. -/
inductive ConfirmOutcome
  | Confirmed
  | Failed
  | TimedOut
deriving DecidableEq, Repr

def confirmTimeoutSeconds : Nat := 60

def confirmPollIntervalSeconds : Nat := 2

/-- Ticks that fire strictly before the 60-second timer: 29. -/
def confirmTickBudget : Nat :=
  (confirmTimeoutSeconds - 1) / confirmPollIntervalSeconds

/-- A poll result on which the loop keeps waiting: an RPC error (`continue`),
a nil status, or a status with no error that is merely `processed`. -/
def isNonTerminalPoll : SigPollResult → Bool
  | .rpcError => true
  | .missing => true
  | .status s => !s.hasErr && s.confirmationStatus == .processed

/-- The loop body of `waitForConfirmation`, from tick `i` with `fuel` ticks
left before the timeout fires. A status error returns the program-failure
outcome before the confirmation level is examined, exactly as in the source. -/
def waitForConfirmationAux (poll : Nat → SigPollResult) : Nat → Nat → ConfirmOutcome
  | _, 0 => .TimedOut
  | i, fuel + 1 =>
    match poll i with
    | .rpcError => waitForConfirmationAux poll (i + 1) fuel
    | .missing => waitForConfirmationAux poll (i + 1) fuel
    | .status s =>
      if s.hasErr then .Failed
      else if s.confirmationStatus == .confirmed || s.confirmationStatus == .finalized then
        .Confirmed
      else waitForConfirmationAux poll (i + 1) fuel

/-- Model of `waitForConfirmation` over an environment of per-tick poll results. -/
def waitForConfirmation (poll : Nat → SigPollResult) : ConfirmOutcome :=
  waitForConfirmationAux poll 0 confirmTickBudget

/-! ## Funding planner (`FundVault`)

The decision part of `FundVault`: from the market account's raw bytes, the
wallet's lamport balance (read twice in the source: once to gate the NOS
amount, once to adapt the SOL amount) and the vault's API-reported balance,
compute the planned amounts and the outcome.  Amounts are exact rationals. -/

/-- Little-endian `u64` from a byte list (`jobPriceMicroNOS |= b[i] << 8i`). -/
def uint64FromLEBytes : List Nat → Nat
  | [] => 0
  | b :: rest => b + 256 * uint64FromLEBytes rest

/-- Vault balance as reported by the deployment-manager API. -/
structure VaultBalance where
  sol : ℚ
  nos : ℚ
deriving DecidableEq, Repr

/-- Outcome of `FundVault`'s decision phase: fail with the
insufficient-SOL error, call `TopupVault` with the planned amounts, or skip
the topup because the vault already holds enough. -/
inductive FundVaultResult
  | insufficientSOL
  | topup (solAmount nosAmount : ℚ)
  | alreadyFunded
deriving DecidableEq, Repr

/-- NOS has 6 decimals: `float64(jobPriceMicroNOS) / 1e6`. -/
def nosDecimalsFactor : ℚ := 1000000

/-- Go `float64(balRes.Value) / 1e9`. -/
def lamportsPerSOL : ℚ := 1000000000

/-- The planned NOS amount (`nosNeeded`): 0 unless the RPC is configured, the
market account has at least 48 data bytes, the price at offset 40..48 is
non-zero, the balance read succeeds, and the wallet holds at least 0.003 SOL;
then it is the exact market job price. -/
def fundVaultNosNeeded (rpcConfigured : Bool) (marketQuery : Option (List Nat))
    (nosBalanceQuery : Option Nat) : ℚ :=
  match rpcConfigured with
  | false => 0
  | true =>
    match marketQuery with
    | some data =>
      if 48 ≤ data.length then
        let jobPriceMicroNOS := uint64FromLEBytes ((data.drop 40).take 8)
        let marketJobPrice : ℚ := (jobPriceMicroNOS : ℚ) / nosDecimalsFactor
        if marketJobPrice = 0 then 0
        else
          match nosBalanceQuery with
          | some lamports =>
            let walletSOL : ℚ := (lamports : ℚ) / lamportsPerSOL
            if 3 / 1000 ≤ walletSOL then marketJobPrice else 0
          | none => 0
      else 0
    | none => 0

/-- The planned SOL amount (`solNeeded`): starts at 0.003 and, when the
balance read succeeds, is capped at `balance - 0.0001`, floored at 0. -/
def fundVaultSolNeeded (rpcConfigured : Bool) (solBalanceQuery : Option Nat) : ℚ :=
  let solNeeded : ℚ := 3 / 1000
  match rpcConfigured with
  | false => solNeeded
  | true =>
    match solBalanceQuery with
    | some lamports =>
      let walletSOL : ℚ := (lamports : ℚ) / lamportsPerSOL
      let m0 := walletSOL - 1 / 10000
      let maxAffordable := if m0 < 0 then 0 else m0
      if maxAffordable < solNeeded then maxAffordable else solNeeded
    | none => solNeeded

/-- The decision phase of `FundVault`. -/
def fundVaultDecide (rpcConfigured : Bool) (marketQuery : Option (List Nat))
    (nosBalanceQuery solBalanceQuery : Option Nat) (vault : VaultBalance) :
    FundVaultResult :=
  let nosNeeded := fundVaultNosNeeded rpcConfigured marketQuery nosBalanceQuery
  let solNeeded := fundVaultSolNeeded rpcConfigured solBalanceQuery
  if solNeeded ≤ 0 then .insufficientSOL
  else if vault.sol < solNeeded ∨ vault.nos < nosNeeded then .topup solNeeded nosNeeded
  else .alreadyFunded

/-! ## Deployments and the retry/restart controller (`StartDeploymentWithRetry`)

Statuses are the string constants of the source (`DeploymentStatus` is a Go
string type). The network is an environment of per-attempt responses; the
run returns the Go function's result together with the ordered list of HTTP
requests it issued, so that restart requests can be counted. -/

/-- One entry of a deployment's event log. -/
structure DeploymentEvent where
  type : String
  message : String
deriving DecidableEq, Repr

/-- The fields of a `Deployment` the controller inspects. -/
structure Deployment where
  status : String
  events : List DeploymentEvent
deriving DecidableEq, Repr

/-- The HTTP requests `StartDeploymentWithRetry` can issue. -/
inductive ApiReq
  | start
  | getDep
  | restart
  | directStart
deriving DecidableEq, Repr

/-- The broad blockchain-failure test applied to the event log:
`strings.Contains(msg, "Transaction was not confirmed")`, or
`strings.Contains(msg, "transaction timeout")`, or `Type == "JOB_LIST_ERROR"`. -/
def hasBlockchainError (events : List DeploymentEvent) : Bool :=
  events.any fun e =>
    strContains e.message "Transaction was not confirmed" ||
    strContains e.message "transaction timeout" ||
    e.type == "JOB_LIST_ERROR"

/-- The exact diagnostic phrase that triggers the nested restart sequence. -/
def exact60sPhrase : String := "Transaction was not confirmed in 60.00 seconds"

/-- True when some event message contains the exact 60-second phrase. -/
def findExactTimeoutEvent (events : List DeploymentEvent) : Bool :=
  events.any fun e => strContains e.message exact60sPhrase

/-- The nested restart sequence (up to 3 tries): issue the restart request;
on success stop, on failure issue a direct start request and try again.
`restartOk ra` is the environment's answer to restart attempt `ra`. -/
def restartSequence (restartOk : Nat → Bool) : Nat → Nat → List ApiReq
  | _, 0 => []
  | ra, fuel + 1 =>
    if restartOk ra then [ApiReq.restart]
    else ApiReq.restart :: ApiReq.directStart :: restartSequence restartOk (ra + 1) fuel

/-- Environment of `StartDeploymentWithRetry`: whether the outer start call of
each attempt succeeds, what the follow-up status read returns (`none` is a
request failure), and whether each nested restart request succeeds. -/
structure RetryEnv where
  startOk : Nat → Bool
  getDep : Nat → Option Deployment
  restartOk : Nat → Nat → Bool

/-- The attempt loop of `StartDeploymentWithRetry`, from attempt number
`attempt` with `fuel = maxRetries - attempt + 1` iterations left. Returns the
Go result (`error` carries the message skeleton) and the issued requests. -/
def startRetryGo (env : RetryEnv) (maxRetries : Nat) :
    Nat → Nat → Except String Deployment × List ApiReq
  | _, 0 => (.error "deployment start failed after attempts", [])
  | attempt, fuel + 1 =>
    if env.startOk attempt = false then
      if attempt == maxRetries then (.error "failed to start deployment after attempts", [.start])
      else
        let r := startRetryGo env maxRetries (attempt + 1) fuel
        (r.1, ApiReq.start :: r.2)
    else
      match env.getDep attempt with
      | none =>
        if attempt == maxRetries then
          (.error "failed to verify deployment status after attempts", [.start, .getDep])
        else
          let r := startRetryGo env maxRetries (attempt + 1) fuel
          (r.1, ApiReq.start :: ApiReq.getDep :: r.2)
      | some dep =>
        if dep.status == "ERROR" && hasBlockchainError dep.events && attempt < maxRetries then
          let inner :=
            if findExactTimeoutEvent dep.events then restartSequence (env.restartOk attempt) 1 3
            else []
          let r := startRetryGo env maxRetries (attempt + 1) fuel
          (r.1, ApiReq.start :: ApiReq.getDep :: (inner ++ r.2))
        else (.ok dep, [.start, .getDep])

/-- Model of `StartDeploymentWithRetry` (the health check at the top only
logs). Attempts run `1..maxRetries`; when the loop falls through, the final
"deployment start failed" error is returned. -/
def startDeploymentWithRetry (env : RetryEnv) (maxRetries : Nat) :
    Except String Deployment × List ApiReq :=
  startRetryGo env maxRetries 1 maxRetries

/-! ## Deployment state tracker (the `wait_for_completion` polling loop of
`resourceNosanaJobCreate`)

The loop creates a `completion_timeout_seconds` timer and a 5-second ticker;
ticks that fire strictly before the timer are those at 5,10,…, i.e.
`(T-1)/5` of them. On each tick it re-reads the deployment (a read error just
skips the tick), records the status unconditionally, handles ERROR with the
blockchain-failure signature by a nested restart (abstracted to the
environment's success bit) while fewer than 3 restarts were used, and exits
on the five stable statuses. -/

/-- Environment of the polling loop: the deployment returned by the `i`-th
tick's status read (`none` is a read error) and the outcome of the `n`-th
nested auto-restart. -/
structure TrackEnv where
  poll : Nat → Option Deployment
  restartOk : Nat → Bool

/-- Terminal outcomes of the polling loop. -/
inductive TrackOutcome
  | completionTimeout
  | stable (d : Deployment)
  | restartsExhausted
deriving DecidableEq, Repr

/-- The five stable/exit statuses tested by the loop. -/
def isStableStatus (s : String) : Bool :=
  s == "RUNNING" || s == "STOPPED" || s == "ARCHIVED" || s == "ERROR" ||
  s == "INSUFFICIENT_FUNDS"

def trackPollIntervalSeconds : Nat := 5

/-- Ticks that fire strictly before the `T`-second completion timer. -/
def trackTickBudget (T : Nat) : Nat := (T - 1) / trackPollIntervalSeconds

/-- The tick loop: `i` is the tick index, `rc` the auto-restart count,
`recorded` the last status written to the Terraform state, `fuel` the ticks
left before the completion timeout. Returns the outcome and the final
recorded status. -/
def trackGo (env : TrackEnv) (maxAutoRetries : Nat) :
    Nat → Nat → String → Nat → TrackOutcome × String
  | _, _, recorded, 0 => (.completionTimeout, recorded)
  | i, rc, recorded, fuel + 1 =>
    match env.poll i with
    | none => trackGo env maxAutoRetries (i + 1) rc recorded fuel
    | some dep =>
      if dep.status == "ERROR" && rc < maxAutoRetries && hasBlockchainError dep.events then
        let rc' := rc + 1
        if env.restartOk rc' = false && maxAutoRetries ≤ rc' then
          (.restartsExhausted, dep.status)
        else trackGo env maxAutoRetries (i + 1) rc' dep.status fuel
      else if isStableStatus dep.status then (.stable dep, dep.status)
      else trackGo env maxAutoRetries (i + 1) rc dep.status fuel

/-- The `wait_for_completion` polling loop, with the 3-restart budget of the
source and the tick budget of a `T`-second completion timeout. `initial` is
the status recorded before the loop starts. -/
def trackDeployment (env : TrackEnv) (initial : String) (T : Nat) : TrackOutcome × String :=
  trackGo env 3 0 0 initial (trackTickBudget T)

/-! ## Authentication headers (`getAuthHeaders` / `makeRequest`)

Signing is an opaque deterministic function of the message (base58-encoded
ed25519 signature in the source); the model returns the message that was
signed alongside the headers so that claims about it can be stated. -/

/-- The constant auth message of the source (`authMessage`). -/
def authMessage : String := "DeploymentsAuthorization"

/-- The values produced by `getAuthHeaders`: the `x-user-id` header value,
the `Authorization` header value, and the message that was signed. -/
structure AuthResult where
  xUserID : String
  authorization : String
  signedMessage : String
deriving DecidableEq, Repr

/-- Model of `getAuthHeaders`: sign the constant auth message and build
`"DeploymentsAuthorization:<base58 signature>:<timestamp>"`. -/
def getAuthHeaders (publicKeyBase58 : String) (sign : String → String)
    (timestamp : Int) : AuthResult :=
  let messageToSign := authMessage
  let signature := sign messageToSign
  { xUserID := publicKeyBase58
    authorization := "DeploymentsAuthorization:" ++ signature ++ ":" ++ toString timestamp
    signedMessage := messageToSign }

/-- An HTTP request as assembled by `makeRequest` (headers only; the body is
irrelevant to the claims). -/
structure HttpRequest where
  method : String
  url : String
  headers : List (String × String)
deriving DecidableEq, Repr

/-- Model of `makeRequest`'s request assembly: base URL + path, optional
`Content-Type`, then the `x-user-id` and `Authorization` headers from
`getAuthHeaders`. -/
def makeRequest (baseURL publicKeyBase58 : String) (sign : String → String)
    (timestamp : Int) (method path : String) (hasBody : Bool) : HttpRequest :=
  let auth := getAuthHeaders publicKeyBase58 sign timestamp
  { method := method
    url := baseURL ++ path
    headers :=
      (if hasBody then [("Content-Type", "application/json")] else []) ++
      [("x-user-id", auth.xUserID), ("Authorization", auth.authorization)] }

/-! ## Resource deletion (`resourceNosanaJobDelete`, direct-submission file)

The direct-submission delete only logs, clears the resource id in the local
Terraform state and returns nil; it issues no API or chain request. The model
gives it the same shape as the other lifecycle steps (state in, state +
remote calls + diagnostics out) so that the absence of calls is a statement,
not a typing accident. -/

/-- The remote operations a lifecycle step could issue. -/
inductive RemoteCall
  | archiveDeployment (id : String)
  | getDeployment (id : String)
  | startDeployment (id : String)
  | submitTransaction
deriving DecidableEq, Repr

/-- The local Terraform state of a `nosana_job` resource: the resource id and
the other attributes. -/
structure TfResourceState where
  id : String
  attrs : List (String × String)
deriving DecidableEq, Repr

/-- Model of `resourceNosanaJobDelete`: clear the id (`d.SetId("")`), issue
no remote call, return success (`nil` diagnostics, modelled as `true`). -/
def resourceNosanaJobDelete (st : TfResourceState) :
    TfResourceState × List RemoteCall × Bool :=
  ({ st with id := "" }, [], true)

/-- Market account bytes with job price 1000000 micro-NOS (1 NOS) at offset 40. -/
def lowBalMarketData : List Nat := List.replicate 40 0 ++ [64, 66, 15, 0, 0, 0, 0, 0]

/-! # Theorems -/

/-! ## Substring lemmas -/

theorem listStarts_of_append (a b l : List Char) (h : listStarts (a ++ b) l = true) :
    listStarts a l = true := by
  induction a generalizing l with
  | nil => rfl
  | cons x as ih =>
    cases l with
    | nil => simp [listStarts] at h
    | cons y ys =>
      simp only [List.cons_append, listStarts, Bool.and_eq_true] at h ⊢
      exact ⟨h.1, ih ys h.2⟩

theorem listHasSub_of_append (a b l : List Char) (h : listHasSub (a ++ b) l = true) :
    listHasSub a l = true := by
  induction l with
  | nil =>
    simp only [listHasSub] at h ⊢
    exact listStarts_of_append a b [] h
  | cons c rest ih =>
    simp only [listHasSub, Bool.or_eq_true] at h ⊢
    rcases h with h | h
    · exact Or.inl (listStarts_of_append a b (c :: rest) h)
    · exact Or.inr (ih h)

/-- A message containing the exact 60-second phrase contains its leading
fragment `"Transaction was not confirmed"`. -/
theorem strContains_of_exact_phrase (m : String)
    (h : strContains m exact60sPhrase = true) :
    strContains m "Transaction was not confirmed" = true := by
  have hsplit : exact60sPhrase.data =
      "Transaction was not confirmed".data ++ " in 60.00 seconds".data := by decide
  unfold strContains at h ⊢
  rw [hsplit] at h
  exact listHasSub_of_append _ _ _ h

/-- An event log with an exact-phrase event passes the broad blockchain-error
test. -/
theorem hasBlockchainError_of_exact (events : List DeploymentEvent)
    (h : findExactTimeoutEvent events = true) :
    hasBlockchainError events = true := by
  unfold findExactTimeoutEvent at h
  unfold hasBlockchainError
  rw [List.any_eq_true] at h ⊢
  obtain ⟨e, he, hc⟩ := h
  refine ⟨e, he, ?_⟩
  simp only [Bool.or_eq_true]
  exact Or.inl (Or.inl (strContains_of_exact_phrase e.message hc))

/-! ## C6 — free market plans zero token funding -/

/-- Claim C6: whenever the market account's price field (8-byte little-endian
integer at offset 40, scaled by the 6-decimal exponent) decodes to 0, the
planned token funding amount is 0, for every wallet balance, and any topup
the planner emits carries a zero NOS amount. -/
theorem fundVault_zero_price_zero_nos
    (data : List Nat) (nosQ solQ : Option Nat) (vault : VaultBalance)
    (hlen : 48 ≤ data.length)
    (hprice : uint64FromLEBytes ((data.drop 40).take 8) = 0) :
    fundVaultNosNeeded true (some data) nosQ = 0 ∧
    (∀ s n : ℚ, fundVaultDecide true (some data) nosQ solQ vault = .topup s n → n = 0) := by
  have hnos : fundVaultNosNeeded true (some data) nosQ = 0 := by
    simp [fundVaultNosNeeded, hprice, hlen]
  refine ⟨hnos, ?_⟩
  intro s n h
  unfold fundVaultDecide at h
  rw [hnos] at h
  dsimp only at h
  split at h
  · cases h
  · split at h
    · cases h
      rfl
    · cases h

/-- Witness for C6 at a concrete zero-price market, three wallet balances. -/
theorem fundVault_zero_price_zero_nos_witness :
    fundVaultNosNeeded true (some (List.replicate 48 0)) (some 5000000000) = 0 ∧
    (∀ s n : ℚ,
      fundVaultDecide true (some (List.replicate 48 0)) (some 5000000000) (some 5000000000)
        ⟨0, 0⟩ = .topup s n → n = 0) :=
  fundVault_zero_price_zero_nos (List.replicate 48 0) (some 5000000000) (some 5000000000)
    ⟨0, 0⟩ (by decide) (by decide)

/-! ## C5 — low wallet balance defers token funding -/

/-- Counterexample to claim C5 as stated: with a non-zero market price
(1 NOS) and a wallet balance of 0.002 SOL (below the 0.003 fee-plus-ATA
threshold), `FundVault` does not fail with the insufficient-funds error: it
proceeds to a SOL-only topup of `0.002 - 0.0001 = 0.0019` SOL (the token
amount is deferred to 0, but no error is raised). -/
theorem fundVault_low_balance_counterexample :
    uint64FromLEBytes ((lowBalMarketData.drop 40).take 8) = 1000000 ∧
    (2000000 : Nat) < 3000000 ∧
    fundVaultDecide true (some lowBalMarketData) (some 2000000) (some 2000000) ⟨0, 0⟩ =
      .topup (19 / 10000) 0 ∧
    fundVaultDecide true (some lowBalMarketData) (some 2000000) (some 2000000) ⟨0, 0⟩ ≠
      .insufficientSOL := by
  have hbytes : uint64FromLEBytes ((lowBalMarketData.drop 40).take 8) = 1000000 := by decide
  have hlen48 : (48 : Nat) ≤ lowBalMarketData.length := by decide
  have hnos : fundVaultNosNeeded true (some lowBalMarketData) (some 2000000) = 0 := by
    unfold fundVaultNosNeeded
    dsimp only
    rw [if_pos hlen48, hbytes, nosDecimalsFactor, lamportsPerSOL]
    rw [if_neg (by norm_num), if_neg (by norm_num)]
  have hsol : fundVaultSolNeeded true (some 2000000) = (19 : ℚ) / 10000 := by
    unfold fundVaultSolNeeded
    dsimp only
    rw [lamportsPerSOL]
    rw [if_neg (show ¬(((2000000 : Nat) : ℚ) / 1000000000 - 1 / 10000 < 0) by norm_num)]
    rw [if_pos (show ((2000000 : Nat) : ℚ) / 1000000000 - 1 / 10000 < 3 / 1000 by norm_num)]
    norm_num
  have hmain : fundVaultDecide true (some lowBalMarketData) (some 2000000) (some 2000000)
      ⟨0, 0⟩ = .topup (19 / 10000) 0 := by
    unfold fundVaultDecide
    rw [hnos, hsol]
    dsimp only
    rw [if_neg (by norm_num), if_pos (Or.inl (by norm_num))]
  refine ⟨hbytes, by decide, hmain, ?_⟩
  rw [hmain]
  intro hcontra
  cases hcontra

/-- Claim C5 (amended): when the market price is non-zero and the wallet's
native balance is below the 0.003 SOL fee-plus-token-account threshold, the
planned token transfer amount is 0 and no topup carries a token amount; the
operation fails with the insufficient-funds error exactly when the balance is
at most the 0.0001 SOL fee buffer (100000 lamports) — above that it proceeds
with a SOL-only transfer instead of failing. -/
theorem fundVault_low_balance_behavior
    (data : List Nat) (lam : Nat) (vault : VaultBalance)
    (hlen : 48 ≤ data.length)
    (hprice : uint64FromLEBytes ((data.drop 40).take 8) ≠ 0)
    (hlow : lam < 3000000) :
    fundVaultNosNeeded true (some data) (some lam) = 0 ∧
    (∀ s n : ℚ,
      fundVaultDecide true (some data) (some lam) (some lam) vault = .topup s n → n = 0) ∧
    (lam ≤ 100000 →
      fundVaultDecide true (some data) (some lam) (some lam) vault = .insufficientSOL) ∧
    (100000 < lam →
      fundVaultDecide true (some data) (some lam) (some lam) vault ≠ .insufficientSOL) := by
  have hcast : (lam : ℚ) < 3000000 := by exact_mod_cast hlow
  have hlamlt : ((lam : ℚ) / lamportsPerSOL) < 3 / 1000 := by
    rw [lamportsPerSOL, div_lt_div_iff (by norm_num) (by norm_num)]
    linarith
  have hpne : ¬((uint64FromLEBytes ((data.drop 40).take 8) : ℚ) / nosDecimalsFactor = 0) := by
    rw [nosDecimalsFactor]
    intro hz
    rw [div_eq_zero_iff] at hz
    rcases hz with hz | hz
    · exact hprice (by exact_mod_cast hz)
    · norm_num at hz
  have hnos : fundVaultNosNeeded true (some data) (some lam) = 0 := by
    unfold fundVaultNosNeeded
    dsimp only
    rw [if_pos hlen, if_neg hpne, if_neg (not_le.mpr hlamlt)]
  have hsol : fundVaultSolNeeded true (some lam) =
      (if ((lam : ℚ) / lamportsPerSOL - 1 / 10000) < 0 then 0
       else (lam : ℚ) / lamportsPerSOL - 1 / 10000) := by
    unfold fundVaultSolNeeded
    dsimp only
    rw [if_pos]
    split
    · norm_num
    · linarith
  refine ⟨hnos, ?_, ?_, ?_⟩
  · intro s n h
    unfold fundVaultDecide at h
    rw [hnos] at h
    dsimp only at h
    split at h
    · cases h
    · split at h
      · cases h
        rfl
      · cases h
  · intro hle
    have hcastle : (lam : ℚ) ≤ 100000 := by exact_mod_cast hle
    have hm0 : (lam : ℚ) / lamportsPerSOL - 1 / 10000 ≤ 0 := by
      rw [lamportsPerSOL, sub_nonpos, div_le_div_iff (by norm_num) (by norm_num)]
      linarith
    have hz : fundVaultSolNeeded true (some lam) = 0 := by
      rw [hsol]
      split
      · rfl
      · rename_i hge
        have h0 : (0 : ℚ) ≤ (lam : ℚ) / lamportsPerSOL - 1 / 10000 := not_lt.mp hge
        linarith
    unfold fundVaultDecide
    rw [hz]
    simp
  · intro hgt h
    have hcastgt : (100000 : ℚ) < lam := by exact_mod_cast hgt
    have hpos : 0 < fundVaultSolNeeded true (some lam) := by
      rw [hsol, if_neg]
      · rw [lamportsPerSOL, sub_pos, div_lt_div_iff (by norm_num) (by norm_num)]
        linarith
      · rw [lamportsPerSOL, not_lt, sub_nonneg, div_le_div_iff (by norm_num) (by norm_num)]
        linarith
    unfold fundVaultDecide at h
    dsimp only at h
    rw [if_neg (not_le.mpr hpos)] at h
    split at h <;> cases h

/-- Witness for C5 (amended) at price 1 NOS, balances 0.002 SOL and
0.00005 SOL. -/
theorem fundVault_low_balance_behavior_witness :
    fundVaultNosNeeded true (some lowBalMarketData) (some 2000000) = 0 ∧
    fundVaultDecide true (some lowBalMarketData) (some 2000000) (some 2000000) ⟨0, 0⟩ ≠
      .insufficientSOL ∧
    fundVaultDecide true (some lowBalMarketData) (some 50000) (some 50000) ⟨0, 0⟩ =
      .insufficientSOL := by
  have h1 := fundVault_low_balance_behavior lowBalMarketData 2000000 ⟨0, 0⟩
    (by decide) (by decide) (by decide)
  have h2 := fundVault_low_balance_behavior lowBalMarketData 50000 ⟨0, 0⟩
    (by decide) (by decide) (by decide)
  exact ⟨h1.1, h1.2.2.2 (by norm_num), h2.2.2.1 (by norm_num)⟩

/-! ## C7 — short content address yields an error, never an instruction -/

/-- Claim C7: for every content-address string whose decoded byte length is
less than 34, the instruction encoder returns the encoding error and no
instruction value is produced. -/
theorem buildNosanaListInstruction_short_address
    (s : String) (b : List Nat) (t : Int)
    (jobAcct runAcct marketAcct userTok vaultAcct prog mintAcct payer : Pubkey)
    (hdec : base58Decode s = some b) (hshort : b.length < 34) :
    buildNosanaListInstruction s t jobAcct runAcct marketAcct userTok vaultAcct prog
      mintAcct payer = .error "invalid IPFS hash length" := by
  unfold buildNosanaListInstruction
  rw [hdec]
  simp [hshort]

/-- Witness for C7: `"abc"` decodes to the 3 bytes `[1, 185, 123]`. -/
theorem buildNosanaListInstruction_short_address_witness :
    buildNosanaListInstruction "abc" 300 "job" "run" "mkt" "user" "vault" "prog" "mint"
      "payer" = .error "invalid IPFS hash length" :=
  buildNosanaListInstruction_short_address "abc" [1, 185, 123] 300 "job" "run" "mkt"
    "user" "vault" "prog" "mint" "payer" (by decide) (by decide)

/-! ## C1 — the full instruction encoding -/

theorem sha256Compress_length (h block : List Nat) : (sha256Compress h block).length = 8 := by
  unfold sha256Compress
  rfl

theorem sha256_foldl_length (bs : List (List Nat)) (h : List Nat) (hh : h.length = 8) :
    (bs.foldl sha256Compress h).length = 8 := by
  induction bs generalizing h with
  | nil => exact hh
  | cons b rest ih => exact ih (sha256Compress h b) (sha256Compress_length h b)

theorem length_flatMap_word32 (l : List Nat) :
    (l.flatMap word32ToBEBytes).length = 4 * l.length := by
  induction l with
  | nil => rfl
  | cons x xs ih =>
    simp only [List.flatMap_cons, List.length_append, ih, List.length_cons]
    simp [word32ToBEBytes]
    ring

/-- A SHA-256 digest is 32 bytes. -/
theorem sha256_length (msg : List Nat) : (sha256 msg).length = 32 := by
  unfold sha256
  rw [length_flatMap_word32, sha256_foldl_length]
  rfl

/-- Claim C1: for every content-address string decoding to at least 34 bytes
and every timeout value, the built instruction has exactly the 9 account
entries in the fixed order — job (write, sign), market (write), run (write,
sign), user token account (write), vault token account (write), payer
(write, sign), authority (sign, read-only), token program (read-only),
system program (read-only) — and its payload is the first 8 bytes of
`sha256("global:list")`, then bytes 2..34 of the decoded content address,
then the timeout as a little-endian 64-bit integer: 48 bytes in total. -/
theorem buildNosanaListInstruction_valid_encoding
    (s : String) (b : List Nat) (t : Int)
    (jobAcct runAcct marketAcct userTok vaultAcct prog mintAcct payer : Pubkey)
    (hdec : base58Decode s = some b) (hlen : 34 ≤ b.length) :
    buildNosanaListInstruction s t jobAcct runAcct marketAcct userTok vaultAcct prog
      mintAcct payer =
      .ok { programID := prog
            accounts :=
              [⟨jobAcct, true, true⟩, ⟨marketAcct, true, false⟩, ⟨runAcct, true, true⟩,
               ⟨userTok, true, false⟩, ⟨vaultAcct, true, false⟩, ⟨payer, true, true⟩,
               ⟨payer, false, true⟩, ⟨tokenProgramID, false, false⟩,
               ⟨systemProgramID, false, false⟩]
            data := (sha256 (strToBytes "global:list")).take 8 ++ (b.drop 2).take 32 ++
              uint64ToLEBytes (intToUint64 t) } ∧
    ([⟨jobAcct, true, true⟩, ⟨marketAcct, true, false⟩, ⟨runAcct, true, true⟩,
      ⟨userTok, true, false⟩, ⟨vaultAcct, true, false⟩, ⟨payer, true, true⟩,
      ⟨payer, false, true⟩, ⟨tokenProgramID, false, false⟩,
      ⟨systemProgramID, false, false⟩] : List AccountMeta).length = 9 ∧
    ((sha256 (strToBytes "global:list")).take 8 ++ (b.drop 2).take 32 ++
      uint64ToLEBytes (intToUint64 t)).length = 48 := by
  refine ⟨?_, rfl, ?_⟩
  · unfold buildNosanaListInstruction
    rw [hdec]
    dsimp only
    rw [if_neg (not_lt.mpr hlen)]
  · simp only [List.length_append, List.length_take, List.length_drop, sha256_length,
      uint64ToLEBytes, List.length_cons, List.length_nil]
    omega

/-- Witness for C1 at the content address
`QmYwAPJzv5CZsnA625s3Xf2nemtYgPpHdWEz79ojWnPbdG` (34 decoded bytes) and
timeout 3600. -/
theorem buildNosanaListInstruction_valid_encoding_witness :
    buildNosanaListInstruction "QmYwAPJzv5CZsnA625s3Xf2nemtYgPpHdWEz79ojWnPbdG" 3600
      "job" "run" "market" "userTok" "vault" "nosJhNRqr2bc9g1nfGDcXXTXvYUmxD4cVwy2pMWhrYM"
      "mint" "payer" =
      .ok { programID := "nosJhNRqr2bc9g1nfGDcXXTXvYUmxD4cVwy2pMWhrYM"
            accounts :=
              [⟨"job", true, true⟩, ⟨"market", true, false⟩, ⟨"run", true, true⟩,
               ⟨"userTok", true, false⟩, ⟨"vault", true, false⟩, ⟨"payer", true, true⟩,
               ⟨"payer", false, true⟩, ⟨tokenProgramID, false, false⟩,
               ⟨systemProgramID, false, false⟩]
            data := (sha256 (strToBytes "global:list")).take 8 ++
              (([18, 32, 157, 108, 43, 229, 15, 112, 105, 83, 71, 154, 185, 223, 44, 227,
                 237, 202, 144, 182, 128, 83, 192, 11, 48, 4, 183, 240, 172, 203, 225, 232,
                 238, 223] : List Nat).drop 2).take 32 ++
              uint64ToLEBytes (intToUint64 3600) } ∧
    ((sha256 (strToBytes "global:list")).take 8 ++
      (([18, 32, 157, 108, 43, 229, 15, 112, 105, 83, 71, 154, 185, 223, 44, 227,
         237, 202, 144, 182, 128, 83, 192, 11, 48, 4, 183, 240, 172, 203, 225, 232,
         238, 223] : List Nat).drop 2).take 32 ++
      uint64ToLEBytes (intToUint64 3600)).length = 48 := by
  have h := buildNosanaListInstruction_valid_encoding
    "QmYwAPJzv5CZsnA625s3Xf2nemtYgPpHdWEz79ojWnPbdG"
    [18, 32, 157, 108, 43, 229, 15, 112, 105, 83, 71, 154, 185, 223, 44, 227,
     237, 202, 144, 182, 128, 83, 192, 11, 48, 4, 183, 240, 172, 203, 225, 232, 238, 223]
    3600 "job" "run" "market" "userTok" "vault"
    "nosJhNRqr2bc9g1nfGDcXXTXvYUmxD4cVwy2pMWhrYM" "mint" "payer" (by decide) (by decide)
  exact ⟨h.1, h.2.2⟩

/-! ## C2 — the three confirmation outcomes -/

theorem waitForConfirmationAux_step (poll : Nat → SigPollResult) (i fuel : Nat)
    (h : isNonTerminalPoll (poll i) = true) :
    waitForConfirmationAux poll i (fuel + 1) = waitForConfirmationAux poll (i + 1) fuel := by
  cases hp : poll i with
  | rpcError => rw [waitForConfirmationAux, hp]
  | missing => rw [waitForConfirmationAux, hp]
  | status s =>
    rw [hp] at h
    simp only [isNonTerminalPoll, Bool.and_eq_true, Bool.not_eq_true', beq_iff_eq] at h
    rw [waitForConfirmationAux, hp]
    simp [h.1, h.2]

theorem waitForConfirmationAux_timeout (poll : Nat → SigPollResult) (fuel : Nat) :
    ∀ i, (∀ k, k < fuel → isNonTerminalPoll (poll (i + k)) = true) →
    waitForConfirmationAux poll i fuel = .TimedOut := by
  induction fuel with
  | zero => intro i _; rfl
  | succ n ih =>
    intro i h
    rw [waitForConfirmationAux_step poll i n (by simpa using h 0 n.succ_pos)]
    exact ih (i + 1) fun k hk => by
      have := h (k + 1) (by omega)
      rwa [show i + (k + 1) = i + 1 + k by omega] at this

theorem waitForConfirmationAux_reach (poll : Nat → SigPollResult) (j : Nat) :
    ∀ i fuel, j < fuel → (∀ k, k < j → isNonTerminalPoll (poll (i + k)) = true) →
    waitForConfirmationAux poll i fuel = waitForConfirmationAux poll (i + j) (fuel - j) := by
  induction j with
  | zero => intro i fuel _ _; rfl
  | succ n ih =>
    intro i fuel hlt h
    obtain ⟨f, rfl⟩ : ∃ f, fuel = f + 1 := ⟨fuel - 1, by omega⟩
    rw [waitForConfirmationAux_step poll i f (by simpa using h 0 n.succ_pos)]
    rw [ih (i + 1) f (by omega) fun k hk => by
      have := h (k + 1) (by omega)
      rwa [show i + (k + 1) = i + 1 + k by omega] at this]
    congr 1 <;> omega

/-- Claim C2: the confirmation engine has exactly the three terminal outcomes
of `ConfirmOutcome`; polling every 2 seconds under the 60-second timeout, it
returns `TimedOut` when no tick yields a terminal status, `Failed` at the
first tick whose status carries a program error, and `Confirmed` at the
first tick whose error-free status is confirmed or finalized. -/
theorem waitForConfirmation_outcomes (poll : Nat → SigPollResult) :
    ((∀ i, i < confirmTickBudget → isNonTerminalPoll (poll i) = true) →
      waitForConfirmation poll = .TimedOut) ∧
    (∀ j s, j < confirmTickBudget → (∀ i, i < j → isNonTerminalPoll (poll i) = true) →
      poll j = .status s → s.hasErr = true → waitForConfirmation poll = .Failed) ∧
    (∀ j s, j < confirmTickBudget → (∀ i, i < j → isNonTerminalPoll (poll i) = true) →
      poll j = .status s → s.hasErr = false →
      (s.confirmationStatus = .confirmed ∨ s.confirmationStatus = .finalized) →
      waitForConfirmation poll = .Confirmed) := by
  refine ⟨?_, ?_, ?_⟩
  · intro h
    exact waitForConfirmationAux_timeout poll confirmTickBudget 0
      fun k hk => by simpa using h k hk
  · intro j s hj hpre hpj herr
    unfold waitForConfirmation
    rw [waitForConfirmationAux_reach poll j 0 confirmTickBudget hj
      fun k hk => by simpa using hpre k hk]
    obtain ⟨f, hf⟩ : ∃ f, confirmTickBudget - j = f + 1 := ⟨confirmTickBudget - j - 1, by omega⟩
    rw [hf]
    unfold waitForConfirmationAux
    simp only [Nat.zero_add, hpj, herr]
    rfl
  · intro j s hj hpre hpj herr hconf
    unfold waitForConfirmation
    rw [waitForConfirmationAux_reach poll j 0 confirmTickBudget hj
      fun k hk => by simpa using hpre k hk]
    obtain ⟨f, hf⟩ : ∃ f, confirmTickBudget - j = f + 1 := ⟨confirmTickBudget - j - 1, by omega⟩
    rw [hf]
    unfold waitForConfirmationAux
    simp only [Nat.zero_add, hpj, herr]
    rcases hconf with hc | hc <;> simp [hc]

/-- Witness for C2: an all-quiet run times out, an immediate program error
fails, an immediate confirmed status succeeds. -/
theorem waitForConfirmation_outcomes_witness :
    waitForConfirmation (fun _ => .rpcError) = .TimedOut ∧
    waitForConfirmation (fun _ => .status ⟨true, .processed⟩) = .Failed ∧
    waitForConfirmation (fun _ => .status ⟨false, .confirmed⟩) = .Confirmed := by
  refine ⟨?_, ?_, ?_⟩
  · exact (waitForConfirmation_outcomes (fun _ => .rpcError)).1 (fun i _ => rfl)
  · exact (waitForConfirmation_outcomes (fun _ => .status ⟨true, .processed⟩)).2.1 0
      ⟨true, .processed⟩ (by norm_num [confirmTickBudget, confirmTimeoutSeconds,
        confirmPollIntervalSeconds]) (fun i hi => absurd hi (Nat.not_lt_zero i)) rfl rfl
  · exact (waitForConfirmation_outcomes (fun _ => .status ⟨false, .confirmed⟩)).2.2 0
      ⟨false, .confirmed⟩ (by norm_num [confirmTickBudget, confirmTimeoutSeconds,
        confirmPollIntervalSeconds]) (fun i hi => absurd hi (Nat.not_lt_zero i)) rfl rfl
      (Or.inl rfl)

/-! ## C3 — restart behaviour of the retry controller -/

theorem restartSequence_head_restart (restartOk : Nat → Bool) (ra fuel : Nat)
    (hfuel : 1 ≤ fuel) : 1 ≤ (restartSequence restartOk ra fuel).count ApiReq.restart := by
  obtain ⟨f, rfl⟩ : ∃ f, fuel = f + 1 := ⟨fuel - 1, by omega⟩
  rw [restartSequence]
  split <;> simp [List.count_cons]

/-- A run over a deployment with no exact-phrase event issues no restart
request, from any attempt and any fuel. -/
theorem startRetryGo_no_restart (env : RetryEnv) (d : Deployment) (maxRetries : Nat)
    (hstart : ∀ n, env.startOk n = true)
    (hget : ∀ n, env.getDep n = some d)
    (hnophrase : findExactTimeoutEvent d.events = false) :
    ∀ fuel attempt, (startRetryGo env maxRetries attempt fuel).2.count ApiReq.restart = 0 := by
  intro fuel
  induction fuel with
  | zero => intro attempt; rfl
  | succ f ih =>
    intro attempt
    rw [startRetryGo, hstart attempt, hget attempt]
    rw [if_neg (by simp : ¬(true = false))]
    dsimp only
    split
    · simp [hnophrase, List.count_cons, List.count_append, ih (attempt + 1)]
    · simp [List.count_cons]

/-- Claim C3: with the environment reporting an ERROR deployment after every
(successful) start, the controller issues at least one restart request when
some event message contains the exact 60-second phrase and attempts remain,
and zero restart requests when no event message contains that phrase. -/
theorem startDeploymentWithRetry_restart_behavior
    (env : RetryEnv) (d : Deployment) (maxRetries : Nat)
    (hstart : ∀ n, env.startOk n = true)
    (hget : ∀ n, env.getDep n = some d)
    (herr : d.status = "ERROR") :
    ((∃ e ∈ d.events, strContains e.message exact60sPhrase = true) → 2 ≤ maxRetries →
      1 ≤ (startDeploymentWithRetry env maxRetries).2.count ApiReq.restart) ∧
    ((∀ e ∈ d.events, strContains e.message exact60sPhrase = false) →
      (startDeploymentWithRetry env maxRetries).2.count ApiReq.restart = 0) := by
  constructor
  · rintro ⟨e, he, hphrase⟩ h2
    obtain ⟨m, rfl⟩ : ∃ m, maxRetries = m + 2 := ⟨maxRetries - 2, by omega⟩
    have hfind : findExactTimeoutEvent d.events = true := by
      unfold findExactTimeoutEvent
      rw [List.any_eq_true]
      exact ⟨e, he, hphrase⟩
    have hhasb : hasBlockchainError d.events = true := hasBlockchainError_of_exact _ hfind
    have hlt : decide ((1 : Nat) < m + 2) = true := by
      rw [decide_eq_true_eq]
      omega
    unfold startDeploymentWithRetry
    rw [startRetryGo, hstart 1, hget 1]
    simp only [reduceIte, herr, hhasb, hfind, hlt, beq_self_eq_true, Bool.and_self,
      Bool.and_true, Bool.true_and, if_true, List.count_cons, List.count_append]
    have hseq := restartSequence_head_restart (env.restartOk 1) 1 3 (by omega)
    simp [List.count_cons, List.count_append]
    omega
  · intro hno
    have hnophrase : findExactTimeoutEvent d.events = false := by
      unfold findExactTimeoutEvent
      rw [List.any_eq_false]
      intro e he
      simp [hno e he]
    exact startRetryGo_no_restart env d maxRetries hstart hget hnophrase maxRetries 1

/-- Witness for C3: a phrase-bearing ERROR log gets a restart within budget
3; an unrelated ERROR log gets none. -/
theorem startDeploymentWithRetry_restart_behavior_witness :
    1 ≤ (startDeploymentWithRetry
      ⟨fun _ => true,
       fun _ => some ⟨"ERROR", [⟨"JOB_LIST_ERROR",
         "Transaction was not confirmed in 60.00 seconds. Check signature abc"⟩]⟩,
       fun _ _ => false⟩ 3).2.count ApiReq.restart ∧
    (startDeploymentWithRetry
      ⟨fun _ => true, fun _ => some ⟨"ERROR", [⟨"OTHER", "node crashed"⟩]⟩,
       fun _ _ => true⟩ 3).2.count ApiReq.restart = 0 := by
  constructor
  · exact (startDeploymentWithRetry_restart_behavior
      ⟨fun _ => true,
       fun _ => some ⟨"ERROR", [⟨"JOB_LIST_ERROR",
         "Transaction was not confirmed in 60.00 seconds. Check signature abc"⟩]⟩,
       fun _ _ => false⟩
      ⟨"ERROR", [⟨"JOB_LIST_ERROR",
        "Transaction was not confirmed in 60.00 seconds. Check signature abc"⟩]⟩ 3
      (fun _ => rfl) (fun _ => rfl) rfl).1
      ⟨⟨"JOB_LIST_ERROR", "Transaction was not confirmed in 60.00 seconds. Check signature abc"⟩,
        by simp, by decide⟩ (by omega)
  · exact (startDeploymentWithRetry_restart_behavior
      ⟨fun _ => true, fun _ => some ⟨"ERROR", [⟨"OTHER", "node crashed"⟩]⟩,
       fun _ _ => true⟩
      ⟨"ERROR", [⟨"OTHER", "node crashed"⟩]⟩ 3
      (fun _ => rfl) (fun _ => rfl) rfl).2 (by decide)

/-! ## C4 — what the controller returns on a non-recoverable ERROR -/

/-- An ERROR deployment whose events are unrelated to the blockchain-failure
signature. -/
def errOtherDeployment : Deployment := ⟨"ERROR", [⟨"OTHER", "node crashed"⟩]⟩

/-- Counterexample to claim C4 as stated: on an ERROR whose cause is not the
recognised signature, `StartDeploymentWithRetry` does not propagate an
error — it returns the ERROR deployment itself as a non-error result
(`return deployment, nil` in the source). -/
theorem startDeploymentWithRetry_error_ok_counterexample :
    (startDeploymentWithRetry
      ⟨fun _ => true, fun _ => some errOtherDeployment, fun _ _ => true⟩ 8).1 =
      .ok errOtherDeployment ∧
    errOtherDeployment.status = "ERROR" := by
  exact ⟨rfl, rfl⟩

/-- Claim C4 (amended): when the controller observes an ERROR deployment
whose cause is not the recognised confirmation-timeout signature, or its
attempt budget leaves no further attempt, it returns that ERROR deployment
(with its event log attached) to the caller as a NON-error result; no
`StartFailed`-style error is produced on this path. -/
theorem startDeploymentWithRetry_error_passthrough
    (env : RetryEnv) (d : Deployment) (maxRetries : Nat)
    (hstart : ∀ n, env.startOk n = true)
    (hget : ∀ n, env.getDep n = some d)
    (herr : d.status = "ERROR") (hpos : 1 ≤ maxRetries) :
    (hasBlockchainError d.events = false →
      (startDeploymentWithRetry env maxRetries).1 = .ok d) ∧
    (maxRetries = 1 → (startDeploymentWithRetry env maxRetries).1 = .ok d) := by
  constructor
  · intro hnob
    obtain ⟨m, rfl⟩ : ∃ m, maxRetries = m + 1 := ⟨maxRetries - 1, by omega⟩
    unfold startDeploymentWithRetry
    rw [startRetryGo, hstart 1, hget 1]
    simp [hnob]
  · rintro rfl
    unfold startDeploymentWithRetry
    rw [startRetryGo, hstart 1, hget 1]
    simp

/-- Witness for C4 (amended): unrelated ERROR with budget 8, and
phrase-bearing ERROR with the budget already on its last attempt. -/
theorem startDeploymentWithRetry_error_passthrough_witness :
    (startDeploymentWithRetry
      ⟨fun _ => true, fun _ => some errOtherDeployment, fun _ _ => true⟩ 8).1 =
      .ok errOtherDeployment ∧
    (startDeploymentWithRetry
      ⟨fun _ => true,
       fun _ => some ⟨"ERROR", [⟨"JOB_LIST_ERROR",
         "Transaction was not confirmed in 60.00 seconds"⟩]⟩, fun _ _ => true⟩ 1).1 =
      .ok ⟨"ERROR", [⟨"JOB_LIST_ERROR", "Transaction was not confirmed in 60.00 seconds"⟩]⟩ := by
  constructor
  · exact (startDeploymentWithRetry_error_passthrough
      ⟨fun _ => true, fun _ => some errOtherDeployment, fun _ _ => true⟩
      errOtherDeployment 8 (fun _ => rfl) (fun _ => rfl) rfl (by omega)).1 (by decide)
  · exact (startDeploymentWithRetry_error_passthrough
      ⟨fun _ => true,
       fun _ => some ⟨"ERROR", [⟨"JOB_LIST_ERROR",
         "Transaction was not confirmed in 60.00 seconds"⟩]⟩, fun _ _ => true⟩
      ⟨"ERROR", [⟨"JOB_LIST_ERROR", "Transaction was not confirmed in 60.00 seconds"⟩]⟩ 1
      (fun _ => rfl) (fun _ => rfl) rfl (by omega)).2 rfl

/-! ## C8 — the deployment state tracker's exit behaviour -/

/-- A tick observing a non-stable status just records it and continues. -/
theorem trackGo_step_nonstable (env : TrackEnv) (maxAutoRetries i rc : Nat)
    (recorded : String) (fuel : Nat) (d : Deployment)
    (hp : env.poll i = some d) (hns : isStableStatus d.status = false) :
    trackGo env maxAutoRetries i rc recorded (fuel + 1) =
      trackGo env maxAutoRetries (i + 1) rc d.status fuel := by
  have hne : d.status ≠ "ERROR" := by
    intro hc
    rw [hc] at hns
    exact absurd hns (by decide)
  have hbeq : (d.status == "ERROR") = false := beq_eq_false_iff_ne.mpr hne
  rw [trackGo, hp]
  simp [hbeq, hns]

/-- A tick observing a stable non-ERROR status exits with it. -/
theorem trackGo_exit_stable (env : TrackEnv) (maxAutoRetries i rc : Nat)
    (recorded : String) (fuel : Nat) (d : Deployment)
    (hp : env.poll i = some d) (hstable : isStableStatus d.status = true)
    (hne : d.status ≠ "ERROR") :
    trackGo env maxAutoRetries i rc recorded (fuel + 1) = (.stable d, d.status) := by
  have hbeq : (d.status == "ERROR") = false := beq_eq_false_iff_ne.mpr hne
  rw [trackGo, hp]
  simp [hbeq, hstable]

/-- A tick observing ERROR without the blockchain-failure signature exits. -/
theorem trackGo_exit_error_nosig (env : TrackEnv) (maxAutoRetries i rc : Nat)
    (recorded : String) (fuel : Nat) (d : Deployment)
    (hp : env.poll i = some d) (herr : d.status = "ERROR")
    (hnob : hasBlockchainError d.events = false) :
    trackGo env maxAutoRetries i rc recorded (fuel + 1) = (.stable d, d.status) := by
  rw [trackGo, hp]
  simp [herr, hnob, isStableStatus]

/-- An ERROR deployment carrying the exact 60-second timeout event. -/
def timeoutErrDeployment : Deployment :=
  ⟨"ERROR", [⟨"JOB_LIST_ERROR",
    "Transaction was not confirmed in 60.00 seconds. Check signature abc using the Solana Explorer"⟩]⟩

/-- A deployment still starting up. -/
def startingDeployment : Deployment := ⟨"STARTING", []⟩

/-- Counterexample to claim C8 as stated: a run whose very first tick
observes the stable status ERROR (with the blockchain-timeout signature in
its events, restart budget available) does not exit the loop on that
observation — it restarts, keeps polling, and here runs into the completion
timeout. -/
theorem trackDeployment_no_exit_on_error_counterexample :
    trackDeployment
      ⟨fun i => if i = 0 then some timeoutErrDeployment else some startingDeployment,
       fun _ => true⟩ "STARTING" 26 = (.completionTimeout, "STARTING") ∧
    (fun i => if i = 0 then some timeoutErrDeployment else some startingDeployment : Nat →
      Option Deployment) 0 = some timeoutErrDeployment ∧
    isStableStatus timeoutErrDeployment.status = true := by
  exact ⟨rfl, rfl, rfl⟩

/-- Claim C8 (amended): polling that observes non-stable statuses on the
first two ticks and RUNNING on the third exits at that third tick — before
the completion timeout — with RUNNING as the final recorded status; in
general the loop exits at the first tick observing RUNNING, STOPPED,
ARCHIVED or INSUFFICIENT_FUNDS, and at the first tick observing ERROR whose
event log lacks the blockchain-timeout signature; an ERROR carrying that
signature with auto-restart budget remaining restarts and continues instead
of exiting. -/
theorem trackDeployment_stable_exit
    (env : TrackEnv) (initial : String) (d0 d1 d2 : Deployment) (T : Nat) :
    (env.poll 0 = some d0 → env.poll 1 = some d1 → env.poll 2 = some d2 →
      isStableStatus d0.status = false → isStableStatus d1.status = false →
      d2.status = "RUNNING" → 3 ≤ trackTickBudget T →
      trackDeployment env initial T = (.stable d2, "RUNNING")) ∧
    (env.poll 0 = some d0 → isStableStatus d0.status = true → d0.status ≠ "ERROR" →
      1 ≤ trackTickBudget T → trackDeployment env initial T = (.stable d0, d0.status)) ∧
    (env.poll 0 = some d0 → d0.status = "ERROR" → hasBlockchainError d0.events = false →
      1 ≤ trackTickBudget T → trackDeployment env initial T = (.stable d0, "ERROR")) := by
  refine ⟨?_, ?_, ?_⟩
  · intro hp0 hp1 hp2 hns0 hns1 hrun h3
    obtain ⟨k, hk⟩ : ∃ k, trackTickBudget T = k + 3 := ⟨trackTickBudget T - 3, by omega⟩
    unfold trackDeployment
    rw [hk]
    rw [show k + 3 = (k + 2) + 1 by omega,
      trackGo_step_nonstable env 3 0 0 initial (k + 2) d0 hp0 hns0]
    rw [show k + 2 = (k + 1) + 1 by omega,
      trackGo_step_nonstable env 3 1 0 d0.status (k + 1) d1 hp1 hns1]
    rw [trackGo_exit_stable env 3 2 0 d1.status k d2 hp2 (by rw [hrun]; decide)
      (by rw [hrun]; decide), hrun]
  · intro hp0 hst hne h1
    obtain ⟨k, hk⟩ : ∃ k, trackTickBudget T = k + 1 := ⟨trackTickBudget T - 1, by omega⟩
    unfold trackDeployment
    rw [hk]
    exact trackGo_exit_stable env 3 0 0 initial k d0 hp0 hst hne
  · intro hp0 herr hnob h1
    obtain ⟨k, hk⟩ : ∃ k, trackTickBudget T = k + 1 := ⟨trackTickBudget T - 1, by omega⟩
    unfold trackDeployment
    rw [hk]
    rw [trackGo_exit_error_nosig env 3 0 0 initial k d0 hp0 herr hnob, herr]

/-- Witness for C8 (amended): STARTING, STARTING, then RUNNING on the third
5-second tick of a 300-second window; an immediate STOPPED; an immediate
signature-free ERROR. -/
theorem trackDeployment_stable_exit_witness :
    trackDeployment
      ⟨fun i => if i < 2 then some startingDeployment else some ⟨"RUNNING", []⟩,
       fun _ => true⟩ "STARTING" 300 = (.stable ⟨"RUNNING", []⟩, "RUNNING") ∧
    trackDeployment ⟨fun _ => some ⟨"STOPPED", []⟩, fun _ => true⟩ "STARTING" 300 =
      (.stable ⟨"STOPPED", []⟩, "STOPPED") ∧
    trackDeployment ⟨fun _ => some errOtherDeployment, fun _ => true⟩ "STARTING" 300 =
      (.stable errOtherDeployment, "ERROR") := by
  refine ⟨?_, ?_, ?_⟩
  · exact (trackDeployment_stable_exit
      ⟨fun i => if i < 2 then some startingDeployment else some ⟨"RUNNING", []⟩,
       fun _ => true⟩ "STARTING" startingDeployment startingDeployment ⟨"RUNNING", []⟩
      300).1 rfl rfl rfl (by decide) (by decide) rfl (by decide)
  · exact (trackDeployment_stable_exit
      ⟨fun _ => some ⟨"STOPPED", []⟩, fun _ => true⟩ "STARTING" ⟨"STOPPED", []⟩
      ⟨"STOPPED", []⟩ ⟨"STOPPED", []⟩ 300).2.1 rfl (by decide) (by decide) (by decide)
  · exact (trackDeployment_stable_exit
      ⟨fun _ => some errOtherDeployment, fun _ => true⟩ "STARTING" errOtherDeployment
      errOtherDeployment errOtherDeployment 300).2.2 rfl rfl (by decide) (by decide)

/-! ## C9 — authentication headers -/

/-- Counterexample to claim C9 as stated: the signed message does not
incorporate the timestamp — two requests at the distinct timestamps 1 and 2
sign exactly the same (constant) message. -/
theorem getAuthHeaders_constant_message_counterexample :
    (getAuthHeaders "wallet" (fun m => m) 1).signedMessage =
      (getAuthHeaders "wallet" (fun m => m) 2).signedMessage ∧
    (1 : Int) ≠ 2 :=
  ⟨rfl, by decide⟩

/-- Claim C9 (amended): every request carries the derived wallet-address
header `x-user-id` and an `Authorization` header of the form
`DeploymentsAuthorization:<signature>:<timestamp>`, but the signature is
computed over the constant message `"DeploymentsAuthorization"`; the
timestamp accompanies the signature in the header without being part of the
signed message, so all timestamps sign the same message. -/
theorem getAuthHeaders_spec (publicKeyBase58 : String) (sign : String → String)
    (t1 t2 : Int) (baseURL method path : String) (hasBody : Bool) :
    (getAuthHeaders publicKeyBase58 sign t1).signedMessage = authMessage ∧
    (getAuthHeaders publicKeyBase58 sign t1).signedMessage =
      (getAuthHeaders publicKeyBase58 sign t2).signedMessage ∧
    (getAuthHeaders publicKeyBase58 sign t1).authorization =
      "DeploymentsAuthorization:" ++ sign authMessage ++ ":" ++ toString t1 ∧
    (makeRequest baseURL publicKeyBase58 sign t1 method path hasBody).headers.contains
      ("x-user-id", publicKeyBase58) = true ∧
    (makeRequest baseURL publicKeyBase58 sign t1 method path hasBody).headers.contains
      ("Authorization", (getAuthHeaders publicKeyBase58 sign t1).authorization) = true := by
  refine ⟨rfl, rfl, rfl, ?_, ?_⟩ <;>
    cases hasBody <;> simp [makeRequest, getAuthHeaders]

/-! ## C10 — deleting a job is a local-state-only operation -/

/-- Claim C10: deleting a job resource in the direct-submission lifecycle
issues no remote call, clears only the local Terraform state id (all other
attributes are unchanged), and always returns success. -/
theorem resourceNosanaJobDelete_local_only (st : TfResourceState) :
    (resourceNosanaJobDelete st).2.1 = [] ∧
    (resourceNosanaJobDelete st).1.id = "" ∧
    (resourceNosanaJobDelete st).1.attrs = st.attrs ∧
    (resourceNosanaJobDelete st).2.2 = true :=
  ⟨rfl, rfl, rfl, rfl⟩

end NosanaSpec
